import Mathlib

/-!
Verification of the LLM fallback/tracking core of the `report_ai` repository.

This file shallowly embeds the relevant parts of `src/ai_analysis.py` and
`src/model_tracker.py` as Lean definitions and proves the specified
properties about them.  Provider clients and their network behaviour are
abstracted by an `Outcome`-valued oracle (`world`): invoking a model either
yields a response object, raises a rate-limit error, raises a timeout, or
raises some other exception.  Environment credentials are explicit values.
-/

namespace ReportAI

/-! ## Constants (ai_analysis.py lines 44-48) -/

def GEMINI_MODEL : String := "gemini-3-pro-preview"

def GEMINI_FLASH_MODEL : String := "gemini-2.5-flash"

def DEFAULT_MODEL : String := "gpt-5.2"

def DEFAULT_TEMPERATURE : Int := 0

/-- Python `str.strip()`: drop whitespace from both ends. -/
def pyStrip (s : String) : String :=
  String.mk (((s.toList.dropWhile Char.isWhitespace).reverse.dropWhile
    Char.isWhitespace).reverse)

/-- A credential read from the environment: `none` models an unset variable.
A key is usable when it is truthy and its strip is non-empty
(`not api_key or api_key.strip() == ""` is the unusable test in the source). -/
def usableKey : Option String → Bool
  | none => false
  | some s => !(s == "") && !(pyStrip s == "")

/-- The process environment as the core reads it: the two credentials and
whether the `langchain_google_genai` library imported successfully. -/
structure Env where
  openai_api_key : Option String
  google_api_key : Option String
  gemini_available : Bool

/-- `is_gemini = model == GEMINI_MODEL or model == GEMINI_FLASH_MODEL`
(ai_analysis.py lines 187, 366). -/
def isGeminiModel (m : String) : Bool :=
  m == GEMINI_MODEL || m == GEMINI_FLASH_MODEL

/-! ## Call tracker (model_tracker.py) -/

/-- One entry of `ModelTracker._calls`: `{"model": ..., "success": ...}`. -/
structure CallRecord where
  model : String
  success : Bool
deriving DecidableEq, Repr

/-- `ModelTracker.track_call`: appends a record (model_tracker.py lines 27-38). -/
def track_call (calls : List CallRecord) (model_name : String)
    (success : Bool := true) : List CallRecord :=
  calls ++ [⟨model_name, success⟩]

/-- `[call["model"] for call in self._calls if call.get("success", True)]`
(model_tracker.py line 51). -/
def successfulModels (calls : List CallRecord) : List String :=
  (calls.filter (fun c => c.success)).map (fun c => c.model)

/-- Keys of a `collections.Counter` in insertion (first-occurrence) order. -/
def firstKeys : List String → List String
  | [] => []
  | a :: t => a :: (firstKeys t).filter (fun b => b ≠ a)

/-- `ModelTracker.get_usage_stats`: `dict(Counter(successful_calls))`,
modelled as an association list in Counter iteration order
(model_tracker.py lines 40-52). -/
def get_usage_stats (calls : List CallRecord) : List (String × Nat) :=
  let succ := successfulModels calls
  (firstKeys succ).map (fun m => (m, succ.count m))

/-- One step of Python `max(..., key=lambda x: x[1])`: the running maximum is
replaced only on a strictly larger key, so the first maximum wins ties. -/
def pyMaxStep (acc y : String × Nat) : String × Nat :=
  if acc.2 < y.2 then y else acc

/-- Python `max(iterable, key=lambda x: x[1])` over a non-empty list. -/
def pyMaxBySnd : List (String × Nat) → Option (String × Nat)
  | [] => none
  | x :: t => some (t.foldl pyMaxStep x)

/-- `ModelTracker.get_primary_model` (model_tracker.py lines 54-66). -/
def get_primary_model (calls : List CallRecord) : Option String :=
  match pyMaxBySnd (get_usage_stats calls) with
  | none => none
  | some x => some x.1

/-- `ModelTracker.get_total_calls` (model_tracker.py lines 83-90). -/
def get_total_calls (calls : List CallRecord) : Nat :=
  calls.length

/-- `ModelTracker.get_successful_calls_count` (model_tracker.py lines 92-99). -/
def get_successful_calls_count (calls : List CallRecord) : Nat :=
  (calls.filter (fun c => c.success)).length

/-! ## Response normalizer (ai_analysis.py `_extract_text_from_response`) -/

/-- An element of a Python list found in a response: a dict containing a
`"text"` key, a dict without one, or a non-dict value.  `repr` is `str(item)`. -/
inductive RItem where
  | textDict (text : String) (repr : String)
  | plainDict (repr : String)
  | nonDict (repr : String)
deriving DecidableEq, Repr

/-- The value of a duck-typed attribute (`response.text`, `response.content`,
`response.parts`): a string, a list of items, `None`, or anything else
(`repr` is its `str()`). -/
inductive PyAttr where
  | str (s : String)
  | list (xs : List RItem)
  | noneV
  | otherV (repr : String)
deriving DecidableEq, Repr

/-- A response object.  `text`/`parts` are `none` when the attribute is
absent (`hasattr` false); `content` uses `getattr(response, 'content', None)`,
which conflates an absent attribute with `None`. -/
structure RespObj where
  text : Option PyAttr
  content : PyAttr
  parts : Option PyAttr
deriving DecidableEq, Repr

/-- A provider response: either itself a Python list, or an object. -/
inductive Response where
  | list (xs : List RItem)
  | obj (o : RespObj)
deriving DecidableEq, Repr

/-- The `extracted` list of the response-is-a-list branch (lines 252-261):
dicts contribute their `"text"` value, dicts without `"text"` contribute
nothing, non-dicts contribute `str(item)`. -/
def extractTop (xs : List RItem) : List String :=
  xs.filterMap fun it =>
    match it with
    | .textDict t _ => some t
    | .plainDict _ => none
    | .nonDict r => some r

/-- The `extracted` list of the fragment-list branches (lines 270-277,
283-291, 302-309): dicts with `"text"` contribute it, everything else
contributes `str(item)`. -/
def extractFrag (xs : List RItem) : List String :=
  xs.map fun it =>
    match it with
    | .textDict t _ => t
    | .plainDict r => r
    | .nonDict r => r

/-- Lines 300-310 plus the final fallback when content is `None`:
`response.parts` handling. -/
def fromParts : Option PyAttr → String
  | some (.list xs) => " ".intercalate (extractFrag xs)
  | some (.str s) => s
  | some (.otherV r) => r
  | some .noneV => ""
  | none => ""

/-- Lines 280-313: the `response.content` fallback of the normalizer. -/
def fromContent (o : RespObj) : String :=
  match o.content with
  | .list xs => " ".intercalate (extractFrag xs)
  | .str s => s
  | .noneV => fromParts o.parts
  | .otherV r => r

/-- `_extract_text_from_response` (ai_analysis.py lines 237-313). -/
def _extract_text_from_response : Response → String
  | .list xs => " ".intercalate (extractTop xs)
  | .obj o =>
    match o.text with
    | some (.str s) => s
    | some (.list xs) => " ".intercalate (extractFrag xs)
    | _ => fromContent o

/-! ## Invocation oracle and orchestrator state -/

/-- The outcome of constructing a client for a model and invoking it on a
prompt: a response, a `RateLimitError`, a `FuturesTimeoutError`, or any
other exception.  This abstracts `ChatOpenAI`/`ChatGoogleGenerativeAI`
construction plus `_invoke_with_timeout`. -/
inductive Outcome where
  | success (resp : Response)
  | rateLimit
  | timeout
  | otherError
deriving DecidableEq, Repr

/-- An invocation oracle: outcome of invoking a given model on a given
prompt in the current world. -/
abbrev World : Type := String → String → Outcome

/-- Result of an orchestrator run: the returned value, the tracker records
afterwards, and the models whose construction/invocation was actually
attempted, in order. -/
structure StepResult where
  result : Option String
  tracker : List CallRecord
  attempted : List String
deriving DecidableEq, Repr

/-- Whether a candidate model passes the guard that lets the fallback loop
attempt it (ai_analysis.py lines 369, 392): an OpenAI-class model needs a
usable OpenAI key, a Gemini-class model needs the library plus a usable
Google key. -/
def avail (env : Env) (m : String) : Bool :=
  if isGeminiModel m then env.gemini_available && usableKey env.google_api_key
  else usableKey env.openai_api_key

/-- The loop of `_try_fallback_models` over the remaining candidates
(ai_analysis.py lines 364-410).  On success the result is normalized and one
successful record is tracked; every failure (`RateLimitError`,
`FuturesTimeoutError`, or any other exception, in both provider branches)
continues with the next candidate; a candidate failing its credential guard
is skipped without an attempt. -/
def tryGo (env : Env) (world : World) (prompt : String) :
    List String → List CallRecord → StepResult
  | [], tr => ⟨none, tr, []⟩
  | m :: rest, tr =>
    if !(isGeminiModel m) && usableKey env.openai_api_key then
      match world m prompt with
      | .success resp =>
        ⟨some (_extract_text_from_response resp), track_call tr m true, [m]⟩
      | _ =>
        let s := tryGo env world prompt rest tr
        ⟨s.result, s.tracker, m :: s.attempted⟩
    else if isGeminiModel m && env.gemini_available && usableKey env.google_api_key then
      match world m prompt with
      | .success resp =>
        ⟨some (_extract_text_from_response resp), track_call tr m true, [m]⟩
      | _ =>
        let s := tryGo env world prompt rest tr
        ⟨s.result, s.tracker, m :: s.attempted⟩
    else
      tryGo env world prompt rest tr

/-- `_try_fallback_models` (ai_analysis.py lines 341-410): iterates
`fallback_models[current_index + 1:]`. -/
def _try_fallback_models (env : Env) (world : World) (fallback_models : List String)
    (current_index : Nat) (prompt : String) (tr : List CallRecord) : StepResult :=
  tryGo env world prompt (fallback_models.drop (current_index + 1)) tr

/-- The configuration dict returned by `get_llm_with_fallback`
(ai_analysis.py lines 198-205, 221-228).  The constructed client handle is
represented by the model name it is bound to (`llm`). -/
structure LLMConfig where
  model_name : String
  temperature : Int
  api_key : String
  llm : String
  fallback_models : List String
  provider : String
deriving DecidableEq, Repr

/-- Lines 433-439 of `invoke_llm_with_fallback`: locate the current model in
the fallback list by first occurrence, or prepend it at index 0. -/
def resolve_index (fallback_models : List String) (model_name : String) :
    List String × Nat :=
  match fallback_models.findIdx? (fun m => m == model_name) with
  | some i => (fallback_models, i)
  | none => (model_name :: fallback_models, 0)

/-- `invoke_llm_with_fallback` (ai_analysis.py lines 413-476).  The first
attempt uses the already-constructed client; rate-limit and timeout failures
fall back to the remaining candidates; any other failure falls back only
when the configured provider is the OpenAI class, else returns `None`. -/
def invoke_llm_with_fallback (env : Env) (world : World)
    (llm_config : Option LLMConfig) (prompt : String)
    (tr : List CallRecord) : StepResult :=
  match llm_config with
  | none => ⟨none, tr, []⟩
  | some cfg =>
    let resolved := resolve_index cfg.fallback_models cfg.model_name
    match world cfg.llm prompt with
    | .success resp =>
      ⟨some (_extract_text_from_response resp),
        track_call tr cfg.model_name true, [cfg.llm]⟩
    | .rateLimit =>
      let s := _try_fallback_models env world resolved.1 resolved.2 prompt tr
      ⟨s.result, s.tracker, cfg.llm :: s.attempted⟩
    | .timeout =>
      let s := _try_fallback_models env world resolved.1 resolved.2 prompt tr
      ⟨s.result, s.tracker, cfg.llm :: s.attempted⟩
    | .otherError =>
      if cfg.provider == "openai" then
        let s := _try_fallback_models env world resolved.1 resolved.2 prompt tr
        ⟨s.result, s.tracker, cfg.llm :: s.attempted⟩
      else
        ⟨none, tr, [cfg.llm]⟩

/-! ## Model selector (`get_llm_with_fallback`, ai_analysis.py lines 144-234) -/

/-- Lines 164-182: build the ordered fallback list.  Gemini models join only
when the library is available and the Google key is usable; the two OpenAI
defaults are always present; the requested primary model is moved (or
inserted) to index 0, removing its first duplicate. -/
def build_fallback_models (env : Env) (primary_model : String) : List String :=
  let fm := ["gpt-5.2"]
  let fm := if env.gemini_available && usableKey env.google_api_key then
      fm ++ [GEMINI_MODEL, GEMINI_FLASH_MODEL]
    else fm
  let fm := fm ++ ["gpt-4o"]
  primary_model :: fm.erase primary_model

/-- Result of model selection: the configuration (if any) and the models
whose client construction was attempted, in order. -/
structure SelectResult where
  config : Option LLMConfig
  attempted : List String
deriving DecidableEq, Repr

/-- The selection loop of `get_llm_with_fallback` (lines 185-231):
`constructOk` abstracts whether the provider client constructor succeeds. -/
def selectGo (env : Env) (constructOk : String → Bool) (temperature : Int)
    (fm : List String) : List String → SelectResult
  | [] => ⟨none, []⟩
  | m :: rest =>
    if !(isGeminiModel m) && usableKey env.openai_api_key then
      if constructOk m then
        ⟨some ⟨m, temperature, (env.openai_api_key).getD "", m, fm, "openai"⟩, [m]⟩
      else
        let s := selectGo env constructOk temperature fm rest
        ⟨s.config, m :: s.attempted⟩
    else if isGeminiModel m && env.gemini_available && usableKey env.google_api_key then
      if constructOk m then
        ⟨some ⟨m, temperature, (env.google_api_key).getD "", m, fm, "google"⟩, [m]⟩
      else
        let s := selectGo env constructOk temperature fm rest
        ⟨s.config, m :: s.attempted⟩
    else
      selectGo env constructOk temperature fm rest

/-- `get_llm_with_fallback` (ai_analysis.py lines 144-234). -/
def get_llm_with_fallback (env : Env) (constructOk : String → Bool)
    (primary_model : String := DEFAULT_MODEL)
    (temperature : Int := DEFAULT_TEMPERATURE) : SelectResult :=
  if !(usableKey env.openai_api_key) && !(usableKey env.google_api_key) then
    ⟨none, []⟩
  else
    let fm := build_fallback_models env primary_model
    selectGo env constructOk temperature fm fm

/-! ## Helper lemmas: tracker statistics -/

lemma mem_firstKeys {b : String} : ∀ {l : List String}, b ∈ firstKeys l ↔ b ∈ l := by
  intro l
  induction l with
  | nil => simp [firstKeys]
  | cons a t ih =>
    by_cases hb : b = a
    · subst hb; simp [firstKeys]
    · simp [firstKeys, List.mem_filter, ih, hb]

lemma firstKeys_nodup : ∀ l : List String, (firstKeys l).Nodup := by
  intro l
  induction l with
  | nil => simp [firstKeys]
  | cons a t ih =>
    refine List.nodup_cons.mpr ⟨?_, ih.filter _⟩
    intro hmem
    have := (List.mem_filter.mp hmem).2
    simp at this

lemma firstKeys_perm_dedup (l : List String) : List.Perm (firstKeys l) l.dedup := by
  refine (List.perm_ext_iff_of_nodup (firstKeys_nodup l) l.nodup_dedup).mpr ?_
  intro a
  rw [mem_firstKeys, List.mem_dedup]

lemma sum_firstKeys_count (l : List String) :
    ((firstKeys l).map (fun m => l.count m)).sum = l.length := by
  have h := (firstKeys_perm_dedup l).map (fun m => l.count m)
  rw [h.sum_eq]
  exact List.sum_map_count_dedup_eq_length l

lemma firstKeys_eq_nil_iff {l : List String} : firstKeys l = [] ↔ l = [] := by
  cases l <;> simp [firstKeys]

/-- C8: `get_usage_stats` counts exactly the successful records grouped by
model, and the sum of its values equals `get_successful_calls_count`. -/
theorem usage_stats_agrees_with_successful_count (calls : List CallRecord) :
    ((get_usage_stats calls).map (fun p => p.2)).sum
      = get_successful_calls_count calls ∧
    (∀ m cnt, (m, cnt) ∈ get_usage_stats calls →
      cnt = ((calls.filter fun c => c.success).filter fun c => c.model == m).length) ∧
    (∀ m, (∃ cnt, (m, cnt) ∈ get_usage_stats calls) ↔ m ∈ successfulModels calls) := by
  refine ⟨?_, ?_, ?_⟩
  · unfold get_usage_stats get_successful_calls_count
    rw [List.map_map]
    have h1 : ((fun p : String × Nat => p.2) ∘ fun m => (m, (successfulModels calls).count m))
        = fun m => (successfulModels calls).count m := rfl
    rw [h1, sum_firstKeys_count]
    unfold successfulModels
    rw [List.length_map]
  · intro m cnt hmem
    unfold get_usage_stats at hmem
    obtain ⟨a, _, heq⟩ := List.mem_map.mp hmem
    have ha : a = m := congrArg Prod.fst heq
    have hcnt : (successfulModels calls).count a = cnt := congrArg Prod.snd heq
    subst ha
    rw [← hcnt]
    unfold successfulModels
    rw [List.count_eq_countP, List.countP_map, List.countP_eq_length_filter]
    rfl
  · intro m
    unfold get_usage_stats
    constructor
    · rintro ⟨cnt, hmem⟩
      obtain ⟨a, ha, heq⟩ := List.mem_map.mp hmem
      have : a = m := congrArg Prod.fst heq
      subst this
      exact mem_firstKeys.mp ha
    · intro hm
      exact ⟨(successfulModels calls).count m,
        List.mem_map.mpr ⟨m, mem_firstKeys.mpr hm, rfl⟩⟩

/-- Witness for C8 at a concrete record sequence. -/
theorem usage_stats_agrees_with_successful_count_witness :
    ((get_usage_stats [⟨"a", true⟩, ⟨"b", true⟩, ⟨"a", true⟩, ⟨"c", false⟩]).map
        (fun p => p.2)).sum
      = get_successful_calls_count [⟨"a", true⟩, ⟨"b", true⟩, ⟨"a", true⟩, ⟨"c", false⟩] ∧
    (2 : Nat) = ((([⟨"a", true⟩, ⟨"b", true⟩, ⟨"a", true⟩,
        ⟨"c", false⟩] : List CallRecord).filter fun c => c.success).filter
          fun c => c.model == "a").length :=
  ⟨(usage_stats_agrees_with_successful_count _).1,
    (usage_stats_agrees_with_successful_count _).2.1 "a" 2 (by decide)⟩

/-! ## Helper lemmas: Python max over stats -/

lemma pyMaxStep_ge_left (x y : String × Nat) : x.2 ≤ (pyMaxStep x y).2 := by
  unfold pyMaxStep
  split <;> omega

lemma pyMaxStep_ge_right (x y : String × Nat) : y.2 ≤ (pyMaxStep x y).2 := by
  unfold pyMaxStep
  split <;> omega

lemma pyMaxStep_cases (x y : String × Nat) : pyMaxStep x y = x ∨ pyMaxStep x y = y := by
  unfold pyMaxStep
  split
  · right; rfl
  · left; rfl

lemma foldl_pyMax_mem :
    ∀ (t : List (String × Nat)) (x : String × Nat),
      t.foldl pyMaxStep x = x ∨ t.foldl pyMaxStep x ∈ t := by
  intro t
  induction t with
  | nil => intro x; left; rfl
  | cons y t ih =>
    intro x
    rw [List.foldl_cons]
    rcases ih (pyMaxStep x y) with h | h
    · rcases pyMaxStep_cases x y with h2 | h2
      · left; rw [h, h2]
      · right; rw [h, h2]; exact List.mem_cons_self _ _
    · right; exact List.mem_cons_of_mem _ h

lemma foldl_pyMax_ge_init :
    ∀ (t : List (String × Nat)) (x : String × Nat), x.2 ≤ (t.foldl pyMaxStep x).2 := by
  intro t
  induction t with
  | nil => intro x; exact le_refl _
  | cons y t ih =>
    intro x
    rw [List.foldl_cons]
    exact le_trans (pyMaxStep_ge_left x y) (ih _)

lemma foldl_pyMax_ge_mem :
    ∀ (t : List (String × Nat)) (x : String × Nat), ∀ y ∈ t, y.2 ≤ (t.foldl pyMaxStep x).2 := by
  intro t
  induction t with
  | nil => intro x y hy; simp at hy
  | cons z t ih =>
    intro x y hy
    rw [List.foldl_cons]
    rcases List.mem_cons.mp hy with rfl | h
    · exact le_trans (pyMaxStep_ge_right x y) (foldl_pyMax_ge_init t _)
    · exact ih _ y h

/-- C9: `get_primary_model` is absent exactly when no successful call was
recorded; it returns the unique strict maximum when one exists; it always
attains the maximal successful count; and equal record sequences yield equal
answers (the tie-break is deterministic). -/
theorem primary_model_spec (calls : List CallRecord) :
    (get_primary_model calls = none ↔ get_successful_calls_count calls = 0) ∧
    (∀ m, 0 < (successfulModels calls).count m →
      (∀ m2, m2 ≠ m → (successfulModels calls).count m2 < (successfulModels calls).count m) →
      get_primary_model calls = some m) ∧
    (∀ m, get_primary_model calls = some m →
      ∃ c, (m, c) ∈ get_usage_stats calls ∧ ∀ q ∈ get_usage_stats calls, q.2 ≤ c) ∧
    (∀ other, calls = other → get_primary_model calls = get_primary_model other) := by
  have hstats : get_usage_stats calls
      = (firstKeys (successfulModels calls)).map
          (fun m => (m, (successfulModels calls).count m)) := rfl
  have hlen : (successfulModels calls).length = get_successful_calls_count calls := by
    unfold successfulModels get_successful_calls_count
    rw [List.length_map]
  refine ⟨?_, ?_, ?_, ?_⟩
  · unfold get_primary_model
    cases hs : get_usage_stats calls with
    | nil =>
      rw [hstats] at hs
      have h1 : firstKeys (successfulModels calls) = [] := by
        cases h2 : firstKeys (successfulModels calls)
        · rfl
        · rw [h2] at hs; simp at hs
      have h2 : successfulModels calls = [] := firstKeys_eq_nil_iff.mp h1
      have h3 : get_successful_calls_count calls = 0 := by
        rw [← hlen, h2]
        rfl
      simp [pyMaxBySnd, h3]
    | cons x t =>
      rw [hstats] at hs
      have h1 : successfulModels calls ≠ [] := by
        intro h2
        rw [h2] at hs
        simp [firstKeys] at hs
      have h3 : get_successful_calls_count calls ≠ 0 := by
        intro h4
        apply h1
        rw [← List.length_eq_zero, hlen]
        exact h4
      simp [pyMaxBySnd, h3]
  · intro m hpos hmax
    have hm : m ∈ successfulModels calls := List.count_pos_iff.mp hpos
    have hmem : (m, (successfulModels calls).count m) ∈ get_usage_stats calls := by
      rw [hstats]
      exact List.mem_map.mpr ⟨m, mem_firstKeys.mpr hm, rfl⟩
    unfold get_primary_model
    cases hs : get_usage_stats calls with
    | nil => rw [hs] at hmem; simp at hmem
    | cons x t =>
      simp only [pyMaxBySnd]
      have hrmem : List.foldl pyMaxStep x t ∈ x :: t := by
        rcases foldl_pyMax_mem t x with h | h
        · rw [h]; exact List.mem_cons_self _ _
        · exact List.mem_cons_of_mem _ h
      have hrstats : List.foldl pyMaxStep x t ∈ get_usage_stats calls := by
        rw [hs]; exact hrmem
      rw [hstats] at hrstats
      obtain ⟨a, _, heq⟩ := List.mem_map.mp hrstats
      have hrcount : (List.foldl pyMaxStep x t).2
          = (successfulModels calls).count (List.foldl pyMaxStep x t).1 := by
        have h1 : a = (List.foldl pyMaxStep x t).1 := congrArg Prod.fst heq
        have h2 : (successfulModels calls).count a = (List.foldl pyMaxStep x t).2 :=
          congrArg Prod.snd heq
        rw [← h2, h1]
      have hge : (successfulModels calls).count m ≤ (List.foldl pyMaxStep x t).2 := by
        rw [hs] at hmem
        rcases List.mem_cons.mp hmem with h | h
        · have hx2 : (successfulModels calls).count m = x.2 := congrArg Prod.snd h
          rw [hx2]
          exact foldl_pyMax_ge_init t x
        · exact foldl_pyMax_ge_mem t x _ h
      by_cases hrm : (List.foldl pyMaxStep x t).1 = m
      · rw [hrm]
      · exfalso
        have hlt := hmax _ hrm
        rw [hrcount] at hge
        omega
  · intro m hm
    unfold get_primary_model at hm
    cases hs : get_usage_stats calls with
    | nil => rw [hs] at hm; simp [pyMaxBySnd] at hm
    | cons x t =>
      rw [hs] at hm
      simp only [pyMaxBySnd, Option.some.injEq] at hm
      refine ⟨(List.foldl pyMaxStep x t).2, ?_, ?_⟩
      · have hrmem : List.foldl pyMaxStep x t ∈ x :: t := by
          rcases foldl_pyMax_mem t x with h | h
          · rw [h]; exact List.mem_cons_self _ _
          · exact List.mem_cons_of_mem _ h
        have hpair : (m, (List.foldl pyMaxStep x t).2) = List.foldl pyMaxStep x t := by
          rw [← hm]
        rw [hpair]
        exact hrmem
      · intro q hq
        rcases List.mem_cons.mp hq with h | h
        · rw [h]; exact foldl_pyMax_ge_init t x
        · exact foldl_pyMax_ge_mem t x _ h
  · intro other h
    rw [h]

/-- Witness for C9 at a concrete record sequence with a strict maximum. -/
theorem primary_model_spec_witness :
    get_primary_model [⟨"a", true⟩, ⟨"b", true⟩, ⟨"a", true⟩] = some "a" :=
  (primary_model_spec _).2.1 "a" (by decide) (fun m2 hm2 => by
    have ha : ("a" == m2) = false := by
      rw [beq_eq_false_iff_ne]
      exact fun h => hm2 h.symm
    have hA : (successfulModels [⟨"a", true⟩, ⟨"b", true⟩, ⟨"a", true⟩]).count "a" = 2 := by
      decide
    rw [hA]
    show List.count m2 ["a", "b", "a"] < 2
    simp only [List.count_cons, List.count_nil, ha, if_false]
    by_cases hb : ("b" == m2) = true <;> simp [hb])

/-! ## Response normalizer properties -/

/-- C7: the normalizer is total (always yields a string); a response whose
text accessor holds a consolidated string maps to that string; and a
list-of-fragments response maps to the fragments joined by single spaces. -/
theorem extract_text_total_and_round_trip :
    (∀ r : Response, ∃ s : String, _extract_text_from_response r = s) ∧
    (∀ (o : RespObj) (s : String), o.text = some (PyAttr.str s) →
      _extract_text_from_response (Response.obj o) = s) ∧
    (∀ rep1 rep2 : String,
      _extract_text_from_response
        (Response.list [RItem.textDict "a" rep1, RItem.textDict "b" rep2]) = "a b") := by
  refine ⟨fun r => ⟨_, rfl⟩, ?_, ?_⟩
  · intro o s h
    simp only [_extract_text_from_response]
    rw [h]
  · intro rep1 rep2
    rfl

/-- Witness for C7 at concrete responses of both supported shapes. -/
theorem extract_text_round_trip_witness :
    _extract_text_from_response
        (Response.obj ⟨some (PyAttr.str "hello"), PyAttr.noneV, none⟩) = "hello" ∧
    _extract_text_from_response
        (Response.list [RItem.textDict "a" "x", RItem.textDict "b" "y"]) = "a b" :=
  ⟨extract_text_total_and_round_trip.2.1 _ "hello" rfl,
    extract_text_total_and_round_trip.2.2 "x" "y"⟩

/-! ## Helper lemmas: the fallback loop -/

lemma tryGo_reaches_success (env : Env) (world : World) (prompt : String) :
    ∀ (l : List String) (tr : List CallRecord) (j : Nat) (resp : Response),
      j < l.length →
      (∀ i, i < j → ∀ r, world (l.getD i "") prompt ≠ Outcome.success r) →
      avail env (l.getD j "") = true →
      world (l.getD j "") prompt = Outcome.success resp →
      (tryGo env world prompt l tr).result = some (_extract_text_from_response resp) ∧
      (tryGo env world prompt l tr).tracker = tr ++ [⟨l.getD j "", true⟩] := by
  intro l
  induction l with
  | nil =>
    intro tr j resp hj
    simp at hj
  | cons m rest ih =>
    intro tr j resp hj hbefore havail hsucc
    cases j with
    | zero =>
      rw [List.getD_cons_zero] at havail hsucc ⊢
      by_cases hg : isGeminiModel m = true
      · have hga : (env.gemini_available && usableKey env.google_api_key) = true := by
          unfold avail at havail
          rw [if_pos hg] at havail
          exact havail
        have hga2 : env.gemini_available = true ∧ usableKey env.google_api_key = true := by
          simpa using hga
        simp [tryGo, hg, hsucc, track_call, hga2.1, hga2.2]
      · have hoa : usableKey env.openai_api_key = true := by
          unfold avail at havail
          rw [if_neg hg] at havail
          exact havail
        simp [tryGo, hg, hoa, hsucc, track_call]
    | succ j1 =>
      have h0 : ∀ r, world m prompt ≠ Outcome.success r := by
        intro r
        have := hbefore 0 (Nat.succ_pos j1) r
        rwa [List.getD_cons_zero] at this
      rw [List.getD_cons_succ] at havail hsucc ⊢
      have hj1 : j1 < rest.length := Nat.lt_of_succ_lt_succ hj
      have hbefore1 : ∀ i, i < j1 → ∀ r, world (rest.getD i "") prompt ≠ Outcome.success r := by
        intro i hi r
        have := hbefore (i + 1) (Nat.succ_lt_succ hi) r
        rwa [List.getD_cons_succ] at this
      have hrec := ih tr j1 resp hj1 hbefore1 havail hsucc
      unfold tryGo
      by_cases h1 : (!(isGeminiModel m) && usableKey env.openai_api_key) = true
      · rw [if_pos h1]
        cases hw : world m prompt with
        | success r => exact absurd hw (h0 r)
        | rateLimit => exact hrec
        | timeout => exact hrec
        | otherError => exact hrec
      · rw [if_neg h1]
        by_cases h2 : (isGeminiModel m && env.gemini_available
            && usableKey env.google_api_key) = true
        · rw [if_pos h2]
          cases hw : world m prompt with
          | success r => exact absurd hw (h0 r)
          | rateLimit => exact hrec
          | timeout => exact hrec
          | otherError => exact hrec
        · rw [if_neg h2]
          exact hrec

lemma tryGo_all_fail (env : Env) (world : World) (prompt : String) :
    ∀ (l : List String) (tr : List CallRecord),
      (∀ m ∈ l, ∀ r, world m prompt ≠ Outcome.success r) →
      (tryGo env world prompt l tr).result = none ∧
      (tryGo env world prompt l tr).tracker = tr := by
  intro l
  induction l with
  | nil =>
    intro tr _
    exact ⟨rfl, rfl⟩
  | cons m rest ih =>
    intro tr hfail
    have h0 : ∀ r, world m prompt ≠ Outcome.success r :=
      hfail m (List.mem_cons_self _ _)
    have hrest : ∀ m2 ∈ rest, ∀ r, world m2 prompt ≠ Outcome.success r :=
      fun m2 hm2 => hfail m2 (List.mem_cons_of_mem _ hm2)
    have hrec := ih tr hrest
    unfold tryGo
    by_cases h1 : (!(isGeminiModel m) && usableKey env.openai_api_key) = true
    · rw [if_pos h1]
      cases hw : world m prompt with
      | success r => exact absurd hw (h0 r)
      | rateLimit => exact hrec
      | timeout => exact hrec
      | otherError => exact hrec
    · rw [if_neg h1]
      by_cases h2 : (isGeminiModel m && env.gemini_available
          && usableKey env.google_api_key) = true
      · rw [if_pos h2]
        cases hw : world m prompt with
        | success r => exact absurd hw (h0 r)
        | rateLimit => exact hrec
        | timeout => exact hrec
        | otherError => exact hrec
      · rw [if_neg h2]
        exact hrec

lemma resolve_index_head (m0 : String) (rest : List String) :
    resolve_index (m0 :: rest) m0 = (m0 :: rest, 0) := by
  unfold resolve_index
  rw [List.findIdx?_cons]
  simp

/-! ## Concrete worlds used by witnesses and counterexamples -/

/-- An environment with both credentials usable and the Gemini library
available. -/
def envBoth : Env := ⟨some "okey", some "gkey", true⟩

/-- A response whose text accessor holds the consolidated string "ok". -/
def respOk : Response := Response.obj ⟨some (PyAttr.str "ok"), PyAttr.noneV, none⟩

/-- A world where only the Gemini flagship model answers; everything else is
rate-limited. -/
def worldC1 : World := fun m _ =>
  if m == GEMINI_MODEL then Outcome.success respOk else Outcome.rateLimit

/-- A world where every invocation is rate-limited. -/
def worldRL : World := fun _ _ => Outcome.rateLimit

/-! ## Fallback orchestrator properties -/

/-- C1: if candidates `0..k-1` are rate-limited and candidate `k` succeeds
(each fallback candidate up to `k` passing its credential guard), the
orchestrator returns candidate `k`'s normalized response and appends exactly
one record: candidate `k`'s model with `success = true`. -/
theorem invoke_fallback_first_success (env : Env) (world : World) (prompt : String)
    (tr : List CallRecord) (m0 : String) (rest : List String)
    (temp : Int) (key prov : String) (k : Nat) (resp : Response)
    (hk : k < (m0 :: rest).length)
    (hfail : ∀ i, i < k → world ((m0 :: rest).getD i "") prompt = Outcome.rateLimit)
    (havail : ∀ i, 0 < i → i ≤ k → avail env ((m0 :: rest).getD i "") = true)
    (hsucc : world ((m0 :: rest).getD k "") prompt = Outcome.success resp) :
    (invoke_llm_with_fallback env world
        (some ⟨m0, temp, key, m0, m0 :: rest, prov⟩) prompt tr).result
      = some (_extract_text_from_response resp) ∧
    (invoke_llm_with_fallback env world
        (some ⟨m0, temp, key, m0, m0 :: rest, prov⟩) prompt tr).tracker
      = tr ++ [⟨(m0 :: rest).getD k "", true⟩] := by
  cases k with
  | zero =>
    rw [List.getD_cons_zero] at hsucc ⊢
    simp [invoke_llm_with_fallback, hsucc, track_call]
  | succ k1 =>
    have h0 : world m0 prompt = Outcome.rateLimit := by
      have h1 := hfail 0 (Nat.succ_pos k1)
      rwa [List.getD_cons_zero] at h1
    rw [List.getD_cons_succ] at hsucc ⊢
    have hk1 : k1 < rest.length := Nat.lt_of_succ_lt_succ hk
    have hbefore : ∀ i, i < k1 → ∀ r, world (rest.getD i "") prompt ≠ Outcome.success r := by
      intro i hi r
      have h2 := hfail (i + 1) (Nat.succ_lt_succ hi)
      rw [List.getD_cons_succ] at h2
      rw [h2]
      simp
    have havail1 : avail env (rest.getD k1 "") = true := by
      have h3 := havail (k1 + 1) (Nat.succ_pos k1) (le_refl _)
      rwa [List.getD_cons_succ] at h3
    have hrec := tryGo_reaches_success env world prompt rest tr k1 resp hk1 hbefore
      havail1 hsucc
    refine ⟨?_, ?_⟩ <;>
      simp only [invoke_llm_with_fallback, resolve_index_head, h0, _try_fallback_models,
        List.drop_succ_cons, List.drop_zero]
    · exact hrec.1
    · exact hrec.2

/-- Witness for C1: the first candidate rate-limits and the second (Gemini)
candidate succeeds; exactly its record is appended. -/
theorem invoke_fallback_first_success_witness :
    (invoke_llm_with_fallback envBoth worldC1
        (some ⟨"gpt-5.2", 0, "okey", "gpt-5.2", ["gpt-5.2", GEMINI_MODEL], "openai"⟩)
        "p" []).result = some "ok" ∧
    (invoke_llm_with_fallback envBoth worldC1
        (some ⟨"gpt-5.2", 0, "okey", "gpt-5.2", ["gpt-5.2", GEMINI_MODEL], "openai"⟩)
        "p" []).tracker = [⟨GEMINI_MODEL, true⟩] := by
  have h := invoke_fallback_first_success envBoth worldC1 "p" [] "gpt-5.2" [GEMINI_MODEL]
    0 "okey" "openai" 1 respOk (by decide)
    (fun i hi => by
      have h0 : i = 0 := by omega
      subst h0
      decide)
    (fun i h1 h2 => by
      have h0 : i = 1 := by omega
      subst h0
      decide)
    (by decide)
  refine ⟨?_, ?_⟩
  · rw [h.1]
    decide
  · rw [h.2]
    decide

/-- C2: when every candidate is rate-limited, the orchestrator returns
`None` and the tracker is left exactly as it was. -/
theorem invoke_fallback_all_rate_limited (env : Env) (world : World) (prompt : String)
    (tr : List CallRecord) (m0 : String) (rest : List String)
    (temp : Int) (key prov : String)
    (hfail : ∀ m ∈ m0 :: rest, world m prompt = Outcome.rateLimit) :
    (invoke_llm_with_fallback env world
        (some ⟨m0, temp, key, m0, m0 :: rest, prov⟩) prompt tr).result = none ∧
    (invoke_llm_with_fallback env world
        (some ⟨m0, temp, key, m0, m0 :: rest, prov⟩) prompt tr).tracker = tr := by
  have h0 : world m0 prompt = Outcome.rateLimit := hfail m0 (List.mem_cons_self _ _)
  have hrest : ∀ m ∈ rest, ∀ r, world m prompt ≠ Outcome.success r := by
    intro m hm r
    rw [hfail m (List.mem_cons_of_mem _ hm)]
    simp
  have hrec := tryGo_all_fail env world prompt rest tr hrest
  refine ⟨?_, ?_⟩ <;>
    simp only [invoke_llm_with_fallback, resolve_index_head, h0, _try_fallback_models,
      List.drop_succ_cons, List.drop_zero]
  · exact hrec.1
  · exact hrec.2

/-- Witness for C2 at a concrete two-candidate list where everything is
rate-limited. -/
theorem invoke_fallback_all_rate_limited_witness :
    (invoke_llm_with_fallback envBoth worldRL
        (some ⟨"gpt-5.2", 0, "okey", "gpt-5.2", ["gpt-5.2", "gpt-4o"], "openai"⟩)
        "p" []).result = none ∧
    (invoke_llm_with_fallback envBoth worldRL
        (some ⟨"gpt-5.2", 0, "okey", "gpt-5.2", ["gpt-5.2", "gpt-4o"], "openai"⟩)
        "p" []).tracker = [] :=
  invoke_fallback_all_rate_limited envBoth worldRL "p" [] "gpt-5.2" ["gpt-4o"]
    0 "okey" "openai" (fun _ _ => rfl)

/-- C3: the orchestrator is total — it always returns either a string or
`None` — and an absent configuration yields `None` with no attempt made and
the tracker untouched. -/
theorem invoke_fallback_total (env : Env) (world : World)
    (llm_config : Option LLMConfig) (prompt : String) (tr : List CallRecord) :
    ((invoke_llm_with_fallback env world llm_config prompt tr).result = none ∨
      ∃ s, (invoke_llm_with_fallback env world llm_config prompt tr).result = some s) ∧
    (llm_config = none →
      invoke_llm_with_fallback env world llm_config prompt tr = ⟨none, tr, []⟩) := by
  constructor
  · cases h : (invoke_llm_with_fallback env world llm_config prompt tr).result with
    | none => exact Or.inl rfl
    | some s => exact Or.inr ⟨s, rfl⟩
  · intro h
    subst h
    rfl

/-- Witness for C3 at the absent configuration. -/
theorem invoke_fallback_total_witness :
    invoke_llm_with_fallback envBoth worldRL none "p" [] = ⟨none, [], []⟩ :=
  (invoke_fallback_total envBoth worldRL none "p" []).2 rfl

/-! ## Generic-error fallback policy (C5) -/

/-- A world where the primary rate-limits, the Gemini flagship fails with a
generic error, and Gemini Flash succeeds. -/
def worldGemErr : World := fun m _ =>
  if m == "gpt-5.2" then Outcome.rateLimit
  else if m == GEMINI_MODEL then Outcome.otherError
  else if m == GEMINI_FLASH_MODEL then Outcome.success respOk
  else Outcome.rateLimit

/-- The configuration returned for the default primary with both providers
available. -/
def cfgOpenAI : LLMConfig :=
  ⟨"gpt-5.2", 0, "okey", "gpt-5.2",
    ["gpt-5.2", GEMINI_MODEL, GEMINI_FLASH_MODEL, "gpt-4o"], "openai"⟩

/-- C5 counterexample: a Gemini-class candidate inside the fallback loop
fails with an error that is neither rate-limit nor timeout, yet fallback
continues and the call returns the next candidate's text instead of
reporting exhaustion. -/
theorem gemini_error_still_falls_back_counterexample :
    isGeminiModel GEMINI_MODEL = true ∧
    worldGemErr GEMINI_MODEL "p" = Outcome.otherError ∧
    GEMINI_MODEL ∈ (invoke_llm_with_fallback envBoth worldGemErr
        (some cfgOpenAI) "p" []).attempted ∧
    (invoke_llm_with_fallback envBoth worldGemErr (some cfgOpenAI) "p" []).result
      = some "ok" ∧
    (invoke_llm_with_fallback envBoth worldGemErr (some cfgOpenAI) "p" []).result
      ≠ none :=
  ⟨by decide, by decide, by decide, by decide, by decide⟩

/-- C5 amended: the Gemini no-fallback asymmetry applies only to the initial
attempt — a generic error there stops everything unless the configured
provider is the OpenAI class — while inside the fallback loop a generic
error on any candidate (Gemini included) merely advances to the next one. -/
theorem invoke_other_error_policy (env : Env) (world : World) (prompt : String)
    (tr : List CallRecord) (cfg : LLMConfig)
    (hother : world cfg.llm prompt = Outcome.otherError) :
    (cfg.provider ≠ "openai" →
      invoke_llm_with_fallback env world (some cfg) prompt tr = ⟨none, tr, [cfg.llm]⟩) ∧
    (∀ i, cfg.provider = "openai" →
      cfg.fallback_models.findIdx? (fun m => m == cfg.model_name) = some i →
      invoke_llm_with_fallback env world (some cfg) prompt tr =
        ⟨(_try_fallback_models env world cfg.fallback_models i prompt tr).result,
          (_try_fallback_models env world cfg.fallback_models i prompt tr).tracker,
          cfg.llm :: (_try_fallback_models env world cfg.fallback_models i prompt tr).attempted⟩) ∧
    (∀ m rest2 tr2, avail env m = true → world m prompt = Outcome.otherError →
      tryGo env world prompt (m :: rest2) tr2 =
        ⟨(tryGo env world prompt rest2 tr2).result,
          (tryGo env world prompt rest2 tr2).tracker,
          m :: (tryGo env world prompt rest2 tr2).attempted⟩) := by
  refine ⟨?_, ?_, ?_⟩
  · intro hp
    have hb : (cfg.provider == "openai") = false := beq_eq_false_iff_ne.mpr hp
    simp [invoke_llm_with_fallback, hother, hb]
  · intro i hp hidx
    have hb : (cfg.provider == "openai") = true := by
      rw [hp]
      decide
    simp [invoke_llm_with_fallback, hother, hb, resolve_index, hidx]
  · intro m rest2 tr2 hav hoth
    by_cases hg : isGeminiModel m = true
    · have hga : (env.gemini_available && usableKey env.google_api_key) = true := by
        unfold avail at hav
        rw [if_pos hg] at hav
        exact hav
      have hga2 : env.gemini_available = true ∧ usableKey env.google_api_key = true := by
        simpa using hga
      simp [tryGo, hg, hga2.1, hga2.2, hoth]
    · have hoa : usableKey env.openai_api_key = true := by
        unfold avail at hav
        rw [if_neg hg] at hav
        exact hav
      simp [tryGo, hg, hoa, hoth]

/-- A world where every invocation fails with a generic error. -/
def worldOE : World := fun _ _ => Outcome.otherError

/-- The configuration selected when only the Google provider is usable. -/
def cfgGoogle : LLMConfig :=
  ⟨GEMINI_MODEL, 0, "gkey", GEMINI_MODEL,
    ["gpt-5.2", GEMINI_MODEL, GEMINI_FLASH_MODEL, "gpt-4o"], "google"⟩

/-- Witness for the amended C5: a generic error on the initial Gemini-class
attempt returns `None` with no further fallback. -/
theorem invoke_other_error_policy_witness :
    invoke_llm_with_fallback envBoth worldOE (some cfgGoogle) "p" []
      = ⟨none, [], [GEMINI_MODEL]⟩ :=
  (invoke_other_error_policy envBoth worldOE "p" [] cfgGoogle rfl).1 (by decide)

/-! ## Candidate-list construction (C4) -/

/-- An environment where only the Google credential is usable. -/
def envGoogleOnly : Env := ⟨none, some "gkey", true⟩

/-- C4 counterexample: with only the Google credential present, the built
candidate list still contains the OpenAI-class models `gpt-5.2` and
`gpt-4o`, so it does not contain only models of the credentialed provider. -/
theorem candidate_list_foreign_provider_counterexample :
    usableKey envGoogleOnly.openai_api_key = false ∧
    usableKey envGoogleOnly.google_api_key = true ∧
    build_fallback_models envGoogleOnly "gpt-5.2"
      = ["gpt-5.2", GEMINI_MODEL, GEMINI_FLASH_MODEL, "gpt-4o"] ∧
    "gpt-4o" ∈ build_fallback_models envGoogleOnly "gpt-5.2" ∧
    isGeminiModel "gpt-4o" = false ∧
    (get_llm_with_fallback envGoogleOnly (fun _ => true) "gpt-5.2" 0).config
      = some ⟨GEMINI_MODEL, 0, "gkey", GEMINI_MODEL,
          ["gpt-5.2", GEMINI_MODEL, GEMINI_FLASH_MODEL, "gpt-4o"], "google"⟩ :=
  ⟨by decide, by decide, by decide, by decide, by decide, by decide⟩

/-- C4 amended: the requested primary is always at index 0; a Gemini model
other than the primary appears only when the Gemini library and the Google
credential are available; and the two OpenAI defaults are present in the
fixed order regardless of the OpenAI credential — in particular, with only
the OpenAI credential the list holds only OpenAI-class models. -/
theorem build_fallback_models_spec (env : Env) (primary_model : String) :
    (build_fallback_models env primary_model).head? = some primary_model ∧
    (∀ m ∈ build_fallback_models env primary_model, m ≠ primary_model →
      isGeminiModel m = true →
      env.gemini_available = true ∧ usableKey env.google_api_key = true) ∧
    ((env.gemini_available && usableKey env.google_api_key) = false →
      build_fallback_models env primary_model
        = primary_model :: (["gpt-5.2", "gpt-4o"].erase primary_model)) ∧
    ((env.gemini_available && usableKey env.google_api_key) = true →
      build_fallback_models env primary_model
        = primary_model
          :: (["gpt-5.2", GEMINI_MODEL, GEMINI_FLASH_MODEL, "gpt-4o"].erase
                primary_model)) := by
  cases hc : env.gemini_available && usableKey env.google_api_key with
  | false =>
    refine ⟨?_, ?_, ?_, ?_⟩
    · simp [build_fallback_models, hc]
    · intro m hm hne hg
      simp only [build_fallback_models, hc, Bool.false_eq_true, if_false] at hm
      rcases List.mem_cons.mp hm with h | h
      · exact absurd h hne
      · have h2 := List.mem_of_mem_erase h
        simp at h2
        rcases h2 with rfl | rfl
        · exact absurd hg (by decide)
        · exact absurd hg (by decide)
    · intro _
      simp [build_fallback_models, hc]
    · intro h
      cases h
  | true =>
    have hc2 : env.gemini_available = true ∧ usableKey env.google_api_key = true := by
      simpa using hc
    refine ⟨?_, ?_, ?_, ?_⟩
    · simp [build_fallback_models, hc]
    · intro m _ _ _
      exact hc2
    · intro h
      cases h
    · intro _
      simp [build_fallback_models, hc]

/-- Witness for the amended C4: with only the OpenAI credential, the list is
exactly the two OpenAI defaults with the primary first. -/
theorem build_fallback_models_spec_witness :
    build_fallback_models ⟨some "okey", none, false⟩ "gpt-5.2" = ["gpt-5.2", "gpt-4o"] := by
  have h := (build_fallback_models_spec ⟨some "okey", none, false⟩ "gpt-5.2").2.2.1
    (by decide)
  rw [h]
  decide

/-! ## Provider classification (C10) -/

lemma tryGo_attempted_gemini (env : Env) (world : World) (prompt : String)
    (hopenai : usableKey env.openai_api_key = false) :
    ∀ (l : List String) (tr : List CallRecord),
      ∀ m ∈ (tryGo env world prompt l tr).attempted, isGeminiModel m = true := by
  intro l
  induction l with
  | nil =>
    intro tr m hm
    simp [tryGo] at hm
  | cons m0 rest ih =>
    intro tr m hm
    have h1 : (!(isGeminiModel m0) && usableKey env.openai_api_key) = false := by
      rw [hopenai, Bool.and_false]
    unfold tryGo at hm
    rw [h1] at hm
    simp only [Bool.false_eq_true, if_false] at hm
    by_cases h2 : (isGeminiModel m0 && env.gemini_available
        && usableKey env.google_api_key) = true
    · have hg : isGeminiModel m0 = true := by
        simp only [Bool.and_eq_true] at h2
        exact h2.1.1
      rw [h2] at hm
      simp only [if_true] at hm
      cases hw : world m0 prompt with
      | success r =>
        rw [hw] at hm
        simp at hm
        rw [hm]
        exact hg
      | rateLimit =>
        rw [hw] at hm
        simp at hm
        rcases hm with rfl | h3
        · exact hg
        · exact ih tr m h3
      | timeout =>
        rw [hw] at hm
        simp at hm
        rcases hm with rfl | h3
        · exact hg
        · exact ih tr m h3
      | otherError =>
        rw [hw] at hm
        simp at hm
        rcases hm with rfl | h3
        · exact hg
        · exact ih tr m h3
    · have h2f : (isGeminiModel m0 && env.gemini_available
          && usableKey env.google_api_key) = false := by
        cases h3 : (isGeminiModel m0 && env.gemini_available
            && usableKey env.google_api_key)
        · rfl
        · exact absurd h3 h2
      rw [h2f] at hm
      simp only [Bool.false_eq_true, if_false] at hm
      exact ih tr m hm

lemma selectGo_openai_unusable (env : Env) (constructOk : String → Bool)
    (temperature : Int) (fm : List String)
    (hopenai : usableKey env.openai_api_key = false) :
    ∀ l : List String,
      (∀ cfg, (selectGo env constructOk temperature fm l).config = some cfg →
        isGeminiModel cfg.llm = true ∧ cfg.provider = "google") ∧
      (∀ m ∈ (selectGo env constructOk temperature fm l).attempted,
        isGeminiModel m = true) := by
  intro l
  induction l with
  | nil =>
    refine ⟨?_, ?_⟩
    · intro cfg h
      simp [selectGo] at h
    · intro m hm
      simp [selectGo] at hm
  | cons m0 rest ih =>
    have h1 : (!(isGeminiModel m0) && usableKey env.openai_api_key) = false := by
      rw [hopenai, Bool.and_false]
    by_cases h2 : (isGeminiModel m0 && env.gemini_available
        && usableKey env.google_api_key) = true
    · have hg : isGeminiModel m0 = true := by
        simp only [Bool.and_eq_true] at h2
        exact h2.1.1
      by_cases h3 : constructOk m0 = true
      · refine ⟨?_, ?_⟩
        · intro cfg h
          simp only [selectGo, h1, Bool.false_eq_true, if_false, h2, if_true, h3] at h
          have h4 : cfg = ⟨m0, temperature, (env.google_api_key).getD "", m0, fm, "google"⟩ := by
            exact (Option.some.injEq _ _ ▸ h).symm ▸ rfl
          rw [h4]
          exact ⟨hg, rfl⟩
        · intro m hm
          simp only [selectGo, h1, Bool.false_eq_true, if_false, h2, if_true, h3] at hm
          simp at hm
          rw [hm]
          exact hg
      · have h3f : constructOk m0 = false := by
          cases h4 : constructOk m0
          · rfl
          · exact absurd h4 h3
        refine ⟨?_, ?_⟩
        · intro cfg h
          simp only [selectGo, h1, Bool.false_eq_true, if_false, h2, if_true, h3f] at h
          exact (ih).1 cfg h
        · intro m hm
          simp only [selectGo, h1, Bool.false_eq_true, if_false, h2, if_true, h3f] at hm
          simp at hm
          rcases hm with rfl | h4
          · exact hg
          · exact (ih).2 m h4
    · have h2f : (isGeminiModel m0 && env.gemini_available
          && usableKey env.google_api_key) = false := by
        cases h3 : (isGeminiModel m0 && env.gemini_available
            && usableKey env.google_api_key)
        · rfl
        · exact absurd h3 h2
      refine ⟨?_, ?_⟩
      · intro cfg h
        simp only [selectGo, h1, h2f, Bool.false_eq_true, if_false] at h
        exact (ih).1 cfg h
      · intro m hm
        simp only [selectGo, h1, h2f, Bool.false_eq_true, if_false] at hm
        exact (ih).2 m hm

/-- C10: every model other than the two Gemini constants is OpenAI-class:
when the OpenAI credential is unusable, every model whose client is
constructed during selection, and every model invoked by the orchestrator on
the selected configuration, is one of the Gemini constants; in particular a
non-Gemini custom primary is never attempted. -/
theorem non_gemini_models_require_openai_key (env : Env) (world : World)
    (constructOk : String → Bool) (primary_model : String) (temperature : Int)
    (prompt : String) (tr : List CallRecord)
    (hopenai : usableKey env.openai_api_key = false) :
    (∀ m ∈ (get_llm_with_fallback env constructOk primary_model temperature).attempted,
      isGeminiModel m = true) ∧
    (∀ cfg, (get_llm_with_fallback env constructOk primary_model temperature).config
        = some cfg →
      ∀ m ∈ (invoke_llm_with_fallback env world (some cfg) prompt tr).attempted,
        isGeminiModel m = true) ∧
    (isGeminiModel primary_model = false →
      primary_model ∉
        (get_llm_with_fallback env constructOk primary_model temperature).attempted ∧
      ∀ cfg, (get_llm_with_fallback env constructOk primary_model temperature).config
          = some cfg →
        primary_model ∉
          (invoke_llm_with_fallback env world (some cfg) prompt tr).attempted) := by
  have hsel := selectGo_openai_unusable env constructOk temperature
    (build_fallback_models env primary_model) hopenai
    (build_fallback_models env primary_model)
  have hmain1 : ∀ m ∈ (get_llm_with_fallback env constructOk
      primary_model temperature).attempted, isGeminiModel m = true := by
    intro m hm
    unfold get_llm_with_fallback at hm
    by_cases hc : (!(usableKey env.openai_api_key) && !(usableKey env.google_api_key)) = true
    · rw [hc] at hm
      simp at hm
    · have hcf : (!(usableKey env.openai_api_key) && !(usableKey env.google_api_key))
          = false := by
        cases h3 : (!(usableKey env.openai_api_key) && !(usableKey env.google_api_key))
        · rfl
        · exact absurd h3 hc
      rw [hcf] at hm
      simp only [Bool.false_eq_true, if_false] at hm
      exact hsel.2 m hm
  have hcfg : ∀ cfg, (get_llm_with_fallback env constructOk
      primary_model temperature).config = some cfg →
      isGeminiModel cfg.llm = true ∧ cfg.provider = "google" := by
    intro cfg h
    unfold get_llm_with_fallback at h
    by_cases hc : (!(usableKey env.openai_api_key) && !(usableKey env.google_api_key)) = true
    · rw [hc] at h
      simp at h
    · have hcf : (!(usableKey env.openai_api_key) && !(usableKey env.google_api_key))
          = false := by
        cases h3 : (!(usableKey env.openai_api_key) && !(usableKey env.google_api_key))
        · rfl
        · exact absurd h3 hc
      rw [hcf] at h
      simp only [Bool.false_eq_true, if_false] at h
      exact hsel.1 cfg h
  have hmain2 : ∀ cfg, (get_llm_with_fallback env constructOk
      primary_model temperature).config = some cfg →
      ∀ m ∈ (invoke_llm_with_fallback env world (some cfg) prompt tr).attempted,
        isGeminiModel m = true := by
    intro cfg hc m hm
    obtain ⟨hg, hp⟩ := hcfg cfg hc
    cases hw : world cfg.llm prompt with
    | success r =>
      simp only [invoke_llm_with_fallback, hw] at hm
      simp at hm
      rw [hm]
      exact hg
    | rateLimit =>
      simp only [invoke_llm_with_fallback, hw, _try_fallback_models] at hm
      simp at hm
      rcases hm with rfl | h3
      · exact hg
      · exact tryGo_attempted_gemini env world prompt hopenai _ tr m h3
    | timeout =>
      simp only [invoke_llm_with_fallback, hw, _try_fallback_models] at hm
      simp at hm
      rcases hm with rfl | h3
      · exact hg
      · exact tryGo_attempted_gemini env world prompt hopenai _ tr m h3
    | otherError =>
      have hb : (cfg.provider == "openai") = false := by
        rw [hp]
        decide
      simp only [invoke_llm_with_fallback, hw, hb] at hm
      simp at hm
      rw [hm]
      exact hg
  refine ⟨hmain1, hmain2, ?_⟩
  intro hpg
  refine ⟨?_, ?_⟩
  · intro hmem
    have h4 := hmain1 primary_model hmem
    rw [hpg] at h4
    cases h4
  · intro cfg hc hmem
    have h4 := hmain2 cfg hc primary_model hmem
    rw [hpg] at h4
    cases h4

/-- Witness for C10: with only the Google credential, the selection yields
the Gemini configuration and every model the orchestrator attempts is a
Gemini constant. -/
theorem non_gemini_models_require_openai_key_witness :
    isGeminiModel GEMINI_FLASH_MODEL = true :=
  (non_gemini_models_require_openai_key envGoogleOnly worldRL (fun _ => true)
      "claude-3" 0 "p" [] (by decide)).2.1
    ⟨GEMINI_MODEL, 0, "gkey", GEMINI_MODEL,
      ["claude-3", "gpt-5.2", GEMINI_MODEL, GEMINI_FLASH_MODEL, "gpt-4o"], "google"⟩
    (by decide) GEMINI_FLASH_MODEL (by decide)

end ReportAI
